import Mathlib

/-!
Shallow embedding of the AI-Sec repository's ingestion-and-detection pipeline.

The repository contains two parallel pipelines:
* `main.py`  — an in-memory pipeline: a TCP gateway appending JSON events to a
  shared list, and an AI-engine loop (`ai_engine_loop`) with an index cursor
  (`processed_log_count`), feature extraction over `seen_ips`/`frequent_users`,
  one-shot training and per-tick anomaly detection.
* `ai_engine.py` + `app.py` — a ClickHouse-backed pipeline: a Flask ingestion
  endpoint (`ingest_log`), and an AI-engine loop (`main_loop`) with a timestamp
  cursor (`last_processed_timestamp`), count-based retraining, and best-effort
  alert notification (`detect_and_alert`).

Machine-learning library calls (sklearn fit/predict, StandardScaler) are
opaque per the spec's scope; they are modelled as parameters or as opaque
generation tags recording which training run produced them.  Everything else
(control flow, state updates, cursors, validation, feature values) is
translated directly from the Python source.
-/

namespace AISec

/-- A parsed timestamp, as far as the feature logic inspects it:
`datetime.hour` and `datetime.weekday()` (Monday = 0, Sunday = 6). -/
structure DateTime where
  hour : Nat
  weekday : Nat
  deriving DecidableEq, Repr

/-- A raw timestamp string as submitted by a producer: either a well-formed
ISO-8601 string (carrying the datetime it denotes) or an unparsable string.
`datetime.fromisoformat` succeeds exactly on the well-formed ones. -/
inductive TS where
  | iso (dt : DateTime)
  | invalid (s : String)
  deriving DecidableEq, Repr

/-- Result of `datetime.fromisoformat`: `some` on well-formed input,
an exception (`none`) otherwise. -/
def TS.parse : TS → Option DateTime
  | .iso dt => some dt
  | .invalid _ => none

/-- The `details` sub-object of a submission; `user` and `source_ip` may be
missing (Python `dict.get` with a default). -/
structure Details where
  user : Option String
  source_ip : Option String
  deriving DecidableEq, Repr

/-- An event as stored by `main.py`'s gateway: an arbitrary JSON object; the
feature extractor reads `timestamp` and the optional `details`. -/
structure Event where
  timestamp : TS
  hostname : String
  event_type : String
  details : Option Details
  deriving DecidableEq, Repr

/-- `details.get('user', 'unknown')` after `event.get('details', {})`. -/
def Event.userOf (e : Event) : String :=
  ((e.details.getD ⟨none, none⟩).user).getD "unknown"

/-- `details.get('source_ip', '0.0.0.0')` after `event.get('details', {})`. -/
def Event.srcIp (e : Event) : String :=
  ((e.details.getD ⟨none, none⟩).source_ip).getD "0.0.0.0"

namespace Main

/-- `main.py`: `frequent_users = {'ubuntu', 'ec2-user', 'admin', 'deploy'}`. -/
def frequent_users : List String := ["ubuntu", "ec2-user", "admin", "deploy"]

/-- `main.py`: `TRAINING_DATA_SIZE = 100`. -/
def TRAINING_DATA_SIZE : Nat := 100

/-- The online feature state of `main.py`: the global `seen_ips` set and the
global `frequent_users` set.  `seen_ips` is modelled as the list of its
elements (set membership is all the source uses). -/
structure FeatState where
  seen_ips : List String
  frequent_users : List String
  deriving DecidableEq, Repr

/-- The feature vector of `main.py.extract_features`:
`[hour_of_day, is_weekend, ip_is_new, user_is_rare]`. -/
structure Vec where
  hour_of_day : Int
  is_weekend : Int
  ip_is_new : Int
  user_is_rare : Int
  deriving DecidableEq, Repr

/-- `main.py.extract_features`, translated line by line: timestamp parse with
the `(12, 0, 0)` fallback; `ip_is_new` with the conditional `seen_ips.add`;
`user_is_rare` against `frequent_users`.  Returns the vector and the updated
global state. -/
def extract_features (st : FeatState) (e : Event) : Vec × FeatState :=
  let hw : Int × Int :=
    match e.timestamp.parse with
    | some dt => ((dt.hour : Int), if 5 ≤ dt.weekday then 1 else 0)
    | none => (12, 0)
  let ip := e.srcIp
  let ipNewSeen : Int × List String :=
    if ip ∈ st.seen_ips then (0, st.seen_ips) else (1, ip :: st.seen_ips)
  let uRare : Int := if e.userOf ∈ st.frequent_users then 0 else 1
  (⟨hw.1, hw.2, ipNewSeen.1, uRare⟩, ⟨ipNewSeen.2, st.frequent_users⟩)

/-- Iterated feature extraction over a batch, threading the shared state —
this is `[extract_features(log) for log in logs]` in `train_model` and the
per-log `extract_features(log)` loop in `detect_anomalies`. -/
def extractBatch (st : FeatState) : List Event → List Vec × FeatState
  | [] => ([], st)
  | e :: rest =>
      let r := extract_features st e
      let rs := extractBatch r.2 rest
      (r.1 :: rs.1, rs.2)

/-- `main.py.handle_client_connection`, one received message: decodable JSON
(`some e`) is appended to `log_data_store` with no validation at all;
undecodable data (`none`) is logged and dropped, store unchanged. -/
def handle_client_connection (store : List Event) (msg : Option Event) : List Event :=
  match msg with
  | some e => store ++ [e]
  | none => store

/-- The event-store read of `ai_engine_loop` (`main.py` lines 112–115):
`new_logs = all_logs[cursor:]` and the cursor subsequently advanced to
`len(all_logs)`.  Returned as `(events, newCursor)`. -/
def readSince (store : List Event) (cursor : Nat) : List Event × Nat :=
  (store.drop cursor, store.length)

/-- `log_data_store.append(event)` under the lock. -/
def log_append (store : List Event) (e : Event) : List Event := store ++ [e]

end Main

/-- A ClickHouse `DateTime` value as the AI engine inspects it: the instant
`t` (used for ordering and for the `last_processed_timestamp` cursor) together
with its `hour` and `weekday()` attributes. -/
structure CHDateTime where
  t : Int
  hour : Nat
  weekday : Nat
  deriving DecidableEq, Repr

/-- A row of the `logs` table as fetched by `ai_engine.py`:
`(timestamp, hostname, user, source_ip)`. -/
structure AILog where
  timestamp : CHDateTime
  hostname : String
  user : String
  source_ip : String
  deriving DecidableEq, Repr

namespace AIEngine

/-- `ai_engine.py`: `TRAINING_DATA_SIZE = 50`. -/
def TRAINING_DATA_SIZE : Nat := 50

/-- `ai_engine.py`: `MODEL_RETRAIN_LOG_COUNT = 50`. -/
def MODEL_RETRAIN_LOG_COUNT : Nat := 50

/-- Insertion step for `ORDER BY timestamp DESC`. -/
def insertDesc (x : AILog) : List AILog → List AILog
  | [] => [x]
  | y :: ys => if y.timestamp.t ≤ x.timestamp.t then x :: y :: ys else y :: insertDesc x ys

/-- `ORDER BY timestamp DESC` over the `logs` table (insertion sort). -/
def sortDesc (l : List AILog) : List AILog := l.foldr insertDesc []

/-- `ai_engine.py.get_training_data`: the query
`SELECT ... FROM logs ORDER BY timestamp DESC LIMIT TRAINING_DATA_SIZE`
against the current table contents. -/
def get_training_data (db : List AILog) : List AILog :=
  (sortDesc db).take TRAINING_DATA_SIZE

/-- Insertion step for `ORDER BY timestamp ASC`. -/
def insertAsc (x : AILog) : List AILog → List AILog
  | [] => [x]
  | y :: ys => if x.timestamp.t ≤ y.timestamp.t then x :: y :: ys else y :: insertAsc x ys

/-- `ORDER BY timestamp ASC` (insertion sort). -/
def sortAsc (l : List AILog) : List AILog := l.foldr insertAsc []

/-- `ai_engine.py.get_new_logs`: the query
`SELECT ... FROM logs WHERE timestamp > 'last' ORDER BY timestamp ASC`. -/
def get_new_logs (last : Int) (db : List AILog) : List AILog :=
  sortAsc (db.filter (fun l => last < l.timestamp.t))

/-- `INSERT INTO logs ... VALUES` appends a row to the table. -/
def logs_insert (db : List AILog) (l : AILog) : List AILog := db ++ [l]

/-- `ai_engine.py.extract_features`, third component:
`user_is_rare = 1 if user in ['root', 'guest'] else 0`. -/
def user_is_rare (l : AILog) : Int :=
  if l.user ∈ ["root", "guest"] then 1 else 0

/-- One row of `ai_engine.py.extract_features`:
`[hour_of_day, is_weekend, user_is_rare]`. -/
def extract_row (l : AILog) : List Int :=
  [ (l.timestamp.hour : Int),
    if 5 ≤ l.timestamp.weekday then 1 else 0,
    user_is_rare l ]

/-- `ai_engine.py.extract_features` over a batch. -/
def extract_features (batch : List AILog) : List (List Int) :=
  batch.map extract_row

/-- The mutable module state of `ai_engine.py`: the `logs` table, the global
`model` and `scaler` (opaque sklearn objects, modelled as the tag of the
training run that produced them), the loop's `last_processed_timestamp` and
`logs_processed_since_retrain`, plus a counter generating fresh run tags. -/
structure AIState where
  db : List AILog
  model : Option Nat
  scaler : Option Nat
  last_processed_timestamp : Int
  logs_processed_since_retrain : Nat
  gen : Nat
  deriving DecidableEq, Repr

/-- `ai_engine.py.train_model`: fetch `get_training_data()`; if fewer than
`TRAINING_DATA_SIZE` rows, print and return `False` leaving `model`/`scaler`
untouched; otherwise fit a fresh scaler and model (both tagged with the new
training run) and return `True`. -/
def train_model (s : AIState) : AIState × Bool :=
  let logs := get_training_data s.db
  if logs.length < TRAINING_DATA_SIZE then (s, false)
  else ({ s with scaler := some (s.gen + 1), model := some (s.gen + 1), gen := s.gen + 1 }, true)

/-- What one iteration of `ai_engine.py.main_loop` did, for stating
properties: the training batch used by a (re)train attempt, or the batch
scored by `detect_and_alert` together with the run tags of the `model` and
`scaler` globals it read. -/
inductive AITickLog where
  | trainAttempt (ok : Bool) (batch : List AILog)
  | retrainAttempt (ok : Bool) (batch : List AILog)
  | scored (modelGen scalerGen : Nat) (batch : List AILog)
  | detectSkipped
  | idle
  deriving DecidableEq, Repr

/-- One iteration of `ai_engine.py.main_loop`.  `appended` are the rows the
ingestion side inserted into the `logs` table during the sleep.  Branches in
source order: `model is None` → train and `continue`;
`logs_processed_since_retrain >= MODEL_RETRAIN_LOG_COUNT` → retrain, reset the
counter and `continue`; otherwise fetch `get_new_logs`, run
`detect_and_alert`, advance `last_processed_timestamp` to the last row's
timestamp and add the batch size to the counter. -/
def main_loop_tick (s₀ : AIState) (appended : List AILog) : AIState × AITickLog :=
  let s := { s₀ with db := s₀.db ++ appended }
  match s.model with
  | none =>
      let r := train_model s
      (r.1, .trainAttempt r.2 (get_training_data s.db))
  | some g =>
      if MODEL_RETRAIN_LOG_COUNT ≤ s.logs_processed_since_retrain then
        let r := train_model s
        ({ r.1 with logs_processed_since_retrain := 0 },
         .retrainAttempt r.2 (get_training_data s.db))
      else
        let new_logs := get_new_logs s.last_processed_timestamp s.db
        if hne : new_logs ≠ [] then
          ({ s with
              last_processed_timestamp := (new_logs.getLast hne).timestamp.t,
              logs_processed_since_retrain :=
                s.logs_processed_since_retrain + new_logs.length },
           match s.scaler with
           | some g2 => .scored g g2 new_logs
           | none => .detectSkipped)
        else (s, .idle)

/-- The initial loop state: `model = scaler = None`,
`last_processed_timestamp = datetime(1970, 1, 1)` (instant `0` in our time
scale), counter `0`, over an initial table contents `db₀`. -/
def initState (db₀ : List AILog) : AIState :=
  { db := db₀, model := none, scaler := none, last_processed_timestamp := 0,
    logs_processed_since_retrain := 0, gen := 0 }

/-- Run `main_loop` for one tick per element of `ticks`, each element giving
the rows concurrently inserted before that tick; collects the tick logs. -/
def run : List (List AILog) → AIState → AIState × List AITickLog
  | [], s => (s, [])
  | a :: rest, s =>
      let r := main_loop_tick s a
      let rs := run rest r.1
      (rs.1, r.2 :: rs.2)

/-- Every log row consumed by a successful training or retraining attempt
somewhere in a run's tick log. -/
def trainedEvents (logs : List AITickLog) : List AILog :=
  logs.foldr
    (fun l acc =>
      match l with
      | .trainAttempt true b => b ++ acc
      | .retrainAttempt true b => b ++ acc
      | _ => acc) []

/-- Every log row scored by `detect_and_alert` somewhere in a run's tick
log. -/
def scoredEvents (logs : List AITickLog) : List AILog :=
  logs.foldr
    (fun l acc =>
      match l with
      | .scored _ _ b => b ++ acc
      | _ => acc) []

end AIEngine

/-- An alert row as `detect_and_alert` builds it for the `alerts` table and
the notification payload (the wall-clock `alert_timestamp` is omitted:
nothing in the repository depends on its value). -/
structure Alert where
  event_timestamp : CHDateTime
  hostname : String
  user : String
  source_ip : String
  anomaly_score : Int
  reason : String
  deriving DecidableEq, Repr

namespace AIEngine

/-- The fixed `reason` string of `detect_and_alert`. -/
def ANOMALY_REASON : String := "Anomalous login time or user type."

/-- The timeout (seconds) passed to `requests.post` in `detect_and_alert`. -/
def NOTIFY_TIMEOUT : Nat := 2

/-- The alert built from one anomalous log row, where `scoreOf` stands for
`model.decision_function` on the row's scaled features. -/
def mkAlert (scoreOf : AILog → Int) (l : AILog) : Alert :=
  ⟨l.timestamp, l.hostname, l.user, l.source_ip, scoreOf l, ANOMALY_REASON⟩

/-- The `for i, log in enumerate(new_logs)` body of `detect_and_alert`:
a log predicted `-1` has its alert appended to `alerts_to_insert` and one
notification POST attempted (`notifyOk` tells whether the POST succeeded or
raised a `RequestException`, which is caught and printed).  Returns
`(alerts_to_insert, notification attempts in order with their outcome)`. -/
def detectLoop (predict scoreOf : AILog → Int) (notifyOk : AILog → Bool) :
    List AILog → List Alert × List (Alert × Bool)
  | [] => ([], [])
  | l :: rest =>
      let rs := detectLoop predict scoreOf notifyOk rest
      if predict l = -1 then
        (mkAlert scoreOf l :: rs.1, (mkAlert scoreOf l, notifyOk l) :: rs.2)
      else rs

/-- `ai_engine.py.detect_and_alert`: guard on `model`/`scaler`, run the scan
loop, then insert the collected alerts into the `alerts` table.  `predict`
stands for `model.predict` and `scoreOf` for `model.decision_function`, both
on the scaled features of a row — opaque per the spec's scope.  Returns the
rows inserted into `alerts` and the notification attempts made. -/
def detect_and_alert (model scaler : Option Nat) (predict scoreOf : AILog → Int)
    (notifyOk : AILog → Bool) (new_logs : List AILog) :
    List Alert × List (Alert × Bool) :=
  match model, scaler with
  | some _, some _ => detectLoop predict scoreOf notifyOk new_logs
  | _, _ => ([], [])

end AIEngine

namespace App

/-- A submission body as `app.py.ingest_log` reads it: every field may be
missing (`request.json` is an arbitrary JSON object). -/
structure Submission where
  timestamp : Option TS
  hostname : Option String
  event_type : Option String
  details : Option Details
  deriving DecidableEq, Repr

/-- A row of the `logs` table as `ingest_log` inserts it. -/
structure Row where
  timestamp : DateTime
  hostname : String
  event_type : String
  user : String
  source_ip : String
  deriving DecidableEq, Repr

/-- The HTTP response of `ingest_log`: the success acknowledgment, or an
error response with its status code (400 for an empty body, 500 for any
exception caught during extraction/insert). -/
inductive IngestResult where
  | success
  | error (code : Nat)
  deriving DecidableEq, Repr

/-- `app.py.ingest_log`: `request.json` empty → 400; missing `timestamp` /
`hostname` / `event_type` / `details` key → `KeyError` caught → 500;
unparsable timestamp → `ValueError` from `fromisoformat` caught → 500;
otherwise `user` and `source_ip` are read with `.get(..., 'N/A')` defaults
and one row is inserted into `logs`.  Returns the response and the resulting
table. -/
def ingest_log (db : List Row) (body : Option Submission) : IngestResult × List Row :=
  match body with
  | none => (.error 400, db)
  | some sub =>
    match sub.timestamp with
    | none => (.error 500, db)
    | some ts =>
      match ts.parse with
      | none => (.error 500, db)
      | some dt =>
        match sub.hostname with
        | none => (.error 500, db)
        | some hn =>
          match sub.event_type with
          | none => (.error 500, db)
          | some et =>
            match sub.details with
            | none => (.error 500, db)
            | some d =>
              (.success,
               db ++ [⟨dt, hn, et, d.user.getD "N/A", d.source_ip.getD "N/A"⟩])

end App

namespace Main

/-- The shared mutable state of `main.py`: `log_data_store`, the AI thread's
`processed_log_count`, the global `model` and `scaler` (opaque, modelled as
the tag of the producing training run), the online feature state, and a
counter generating fresh run tags. -/
structure MState where
  log_data_store : List Event
  processed_log_count : Nat
  model : Option Nat
  scaler : Option Nat
  feat : FeatState
  gen : Nat
  deriving DecidableEq, Repr

/-- `main.py.train_model(logs)`: extract features from every log (mutating
`seen_ips`), fit `scaler` then `model` — both therefore tagged with the same
new training run. -/
def train_model (s : MState) (logs : List Event) : MState :=
  let r := extractBatch s.feat logs
  { s with feat := r.2, gen := s.gen + 1,
           scaler := some (s.gen + 1), model := some (s.gen + 1) }

/-- `main.py.detect_anomalies(new_logs)`: `if not model or not scaler:
return` — without a published snapshot the function returns at once, leaving
all state untouched.  Otherwise, per log, extract features (mutating
`seen_ips`), scale and predict, printing an alert on `-1`; only the feature
state changes. -/
def detect_anomalies (s : MState) (logs : List Event) : MState :=
  match s.model, s.scaler with
  | some _, some _ =>
      let r := extractBatch s.feat logs
      { s with feat := r.2 }
  | _, _ => s

/-- What one iteration of `main.py.ai_engine_loop` did: the index interval
`[lo, hi)` of the store it trained on or scored. -/
inductive MLog where
  | trained (lo hi : Nat)
  | scored (lo hi : Nat)
  | idle
  deriving DecidableEq, Repr

/-- One iteration of `main.py.ai_engine_loop`.  `appended` are the events the
server threads appended to `log_data_store` during the sleep.  Under the
lock: snapshot `all_logs` and slice `new_logs = all_logs[cursor:]`.  If there
are new logs: `model is None and len(all_logs) >= TRAINING_DATA_SIZE` →
`train_model(all_logs)` and cursor := `len(all_logs)`; else if
`model is not None` → `detect_anomalies(new_logs)` and cursor :=
`len(all_logs)`; else nothing. -/
def ai_engine_tick (s₀ : MState) (appended : List Event) : MState × MLog :=
  let s := { s₀ with log_data_store := s₀.log_data_store ++ appended }
  let all_len := s.log_data_store.length
  let new_len := all_len - s.processed_log_count
  if 0 < new_len then
    if s.model = none ∧ TRAINING_DATA_SIZE ≤ all_len then
      ({ train_model s s.log_data_store with processed_log_count := all_len },
       .trained 0 all_len)
    else if s.model ≠ none then
      ({ detect_anomalies s (s.log_data_store.drop s.processed_log_count) with
          processed_log_count := all_len },
       .scored s.processed_log_count all_len)
    else (s, .idle)
  else (s, .idle)

/-- The initial state of `main.py`: empty store, cursor 0, no model, empty
`seen_ips`, the literal `frequent_users` set. -/
def initState : MState :=
  { log_data_store := [], processed_log_count := 0, model := none,
    scaler := none, feat := ⟨[], frequent_users⟩, gen := 0 }

/-- Run `ai_engine_loop` for one tick per element of `ticks`, each element
giving the events appended before that tick; collects the tick logs. -/
def run : List (List Event) → MState → MState × List MLog
  | [], s => (s, [])
  | a :: rest, s =>
      let r := ai_engine_tick s a
      let rs := run rest r.1
      (rs.1, r.2 :: rs.2)

end Main

/-! ### Concrete data used by the claim witnesses and counterexamples -/

/-- A concrete log row for user `root`, which IS in the fixed list
`['root', 'guest']` of `ai_engine.py.extract_features`. -/
def rootLog : AILog := ⟨⟨1, 3, 2⟩, "host-a", "root", "10.0.0.9"⟩

/-- Rows for the C2 counterexample: a row at instant 10 arrives first, a row
at the earlier instant 5 is inserted after the first read. -/
def lateLogA : AILog := ⟨⟨10, 2, 0⟩, "h", "u", "a"⟩

/-- Second row of the C2 counterexample (see `lateLogA`). -/
def lateLogB : AILog := ⟨⟨5, 1, 0⟩, "h", "u", "b"⟩

/-- A well-formed submission except for an unparsable timestamp. -/
def subBadTs : App.Submission :=
  ⟨some (.invalid "not-a-date"), some "web-server-01", some "ssh_login_success",
   some ⟨some "ubuntu", some "192.168.1.10"⟩⟩

/-- A submission whose `details` object carries NEITHER `user` NOR
`source_ip`, otherwise well-formed. -/
def subNoUser : App.Submission :=
  ⟨some (.iso ⟨9, 1⟩), some "web-server-01", some "ssh_login_success",
   some ⟨none, none⟩⟩

/-- Fifty concrete log rows at instants 1..50 (hour 9, a Monday) — exactly
`TRAINING_DATA_SIZE` rows for `ai_engine.py`. -/
def demoDB : List AILog :=
  (List.range 50).map fun i => ⟨⟨(i : Int) + 1, 9, 0⟩, "h", "u", "1.2.3.4"⟩

/-- The first row of `demoDB`. -/
def demoLog : AILog := ⟨⟨1, 9, 0⟩, "h", "u", "1.2.3.4"⟩

/-- A concrete well-formed event for the `main.py` pipeline. -/
def demoEvent : Event :=
  ⟨.iso ⟨9, 1⟩, "web-server-01", "ssh_login_success",
   some ⟨some "ubuntu", some "192.168.1.10"⟩⟩

/-- Invariant of `main.py.ai_engine_loop` relating the loop state to the
set of tick logs produced so far: the cursor never exceeds the store; every
training batch lies below the cursor; before the first successful training
(`model = None`) nothing has been trained on or scored and the cursor is
still 0; and every training batch lies entirely below every scoring batch. -/
def MainInv (s : Main.MState) (logs : List Main.MLog) : Prop :=
  s.processed_log_count ≤ s.log_data_store.length
  ∧ (∀ lo hi, Main.MLog.trained lo hi ∈ logs → hi ≤ s.processed_log_count)
  ∧ (s.model = none →
      s.processed_log_count = 0
      ∧ ∀ lo hi, Main.MLog.trained lo hi ∉ logs ∧ Main.MLog.scored lo hi ∉ logs)
  ∧ ∀ lo hi lo' hi', Main.MLog.trained lo hi ∈ logs →
      Main.MLog.scored lo' hi' ∈ logs → hi ≤ lo'

end AISec

namespace AISec

/-! ### Basic facts about the `main.py` feature extractor -/

theorem extract_features_seen (st : Main.FeatState) (e : Event) :
    (Main.extract_features st e).2.seen_ips =
      (if e.srcIp ∈ st.seen_ips then st.seen_ips else e.srcIp :: st.seen_ips) := by
  by_cases h : e.srcIp ∈ st.seen_ips <;> simp [Main.extract_features, h]

theorem extract_features_freq (st : Main.FeatState) (e : Event) :
    (Main.extract_features st e).2.frequent_users = st.frequent_users := by
  by_cases h : e.srcIp ∈ st.seen_ips <;> simp [Main.extract_features, h]

theorem extract_features_ip_is_new (st : Main.FeatState) (e : Event) :
    (Main.extract_features st e).1.ip_is_new =
      (if e.srcIp ∈ st.seen_ips then 0 else 1) := by
  by_cases h : e.srcIp ∈ st.seen_ips <;> simp [Main.extract_features, h]

theorem extract_features_seen_mem (st : Main.FeatState) (e : Event) (x : String) :
    x ∈ (Main.extract_features st e).2.seen_ips ↔
      (x ∈ st.seen_ips ∨ x = e.srcIp) := by
  rw [extract_features_seen]
  by_cases h : e.srcIp ∈ st.seen_ips
  · rw [if_pos h]
    constructor
    · exact Or.inl
    · rintro (h' | rfl) <;> assumption
  · rw [if_neg h]
    simp only [List.mem_cons]
    tauto

theorem extract_features_user_is_rare (st : Main.FeatState) (e : Event) :
    (Main.extract_features st e).1.user_is_rare =
      (if e.userOf ∈ st.frequent_users then 0 else 1) := by
  by_cases h : e.srcIp ∈ st.seen_ips <;> simp [Main.extract_features, h]

theorem extract_features_fallback (st : Main.FeatState) (e : Event)
    (h : e.timestamp.parse = none) :
    (Main.extract_features st e).1.hour_of_day = 12
    ∧ (Main.extract_features st e).1.is_weekend = 0 := by
  by_cases hip : e.srcIp ∈ st.seen_ips <;> simp [Main.extract_features, h, hip]

/-! ### Basic facts about `main.py.detect_anomalies` and its guard -/

theorem detect_anomalies_some (s : Main.MState) (logs : List Event)
    (hm : s.model ≠ none) (hsc : s.scaler ≠ none) :
    Main.detect_anomalies s logs =
      { s with feat := (Main.extractBatch s.feat logs).2 } := by
  rcases hm2 : s.model with _ | g
  · exact absurd hm2 hm
  · rcases hs2 : s.scaler with _ | g2
    · exact absurd hs2 hsc
    · simp [Main.detect_anomalies, hm2, hs2]

theorem detect_anomalies_none (s : Main.MState) (logs : List Event)
    (h : s.model = none ∨ s.scaler = none) :
    Main.detect_anomalies s logs = s := by
  rcases h with h | h
  · simp [Main.detect_anomalies, h]
  · rcases hm2 : s.model with _ | g
    · simp [Main.detect_anomalies, hm2]
    · simp [Main.detect_anomalies, hm2, h]

theorem detect_anomalies_model (s : Main.MState) (logs : List Event) :
    (Main.detect_anomalies s logs).model = s.model := by
  rcases hm : s.model with _ | g <;> rcases hs : s.scaler with _ | g2 <;>
    simp [Main.detect_anomalies, hm, hs]

theorem detect_anomalies_scaler (s : Main.MState) (logs : List Event) :
    (Main.detect_anomalies s logs).scaler = s.scaler := by
  rcases hm : s.model with _ | g <;> rcases hs : s.scaler with _ | g2 <;>
    simp [Main.detect_anomalies, hm, hs]

theorem detect_anomalies_store (s : Main.MState) (logs : List Event) :
    (Main.detect_anomalies s logs).log_data_store = s.log_data_store := by
  rcases hm : s.model with _ | g <;> rcases hs : s.scaler with _ | g2 <;>
    simp [Main.detect_anomalies, hm, hs]

/-! ### Claim C4 -/

/-- Claim C4: for every event, `ip_is_new` is 1 exactly when the event's
source IP is absent from `seen_ips` at call time and 0 otherwise; the IP is
in `seen_ips` when the vector is returned; and any later extraction of an
event with the same source IP (against the updated state) yields 0. -/
theorem c4_ip_is_new_semantics (st : Main.FeatState) (e e' : Event)
    (hsame : e'.srcIp = e.srcIp) :
    ((Main.extract_features st e).1.ip_is_new = 1 ↔ e.srcIp ∉ st.seen_ips)
    ∧ ((Main.extract_features st e).1.ip_is_new = 0 ↔ e.srcIp ∈ st.seen_ips)
    ∧ e.srcIp ∈ (Main.extract_features st e).2.seen_ips
    ∧ (Main.extract_features (Main.extract_features st e).2 e').1.ip_is_new = 0 := by
  have hmem : e'.srcIp ∈ (Main.extract_features st e).2.seen_ips := by
    rw [extract_features_seen_mem]; exact Or.inr hsame
  refine ⟨?_, ?_, ?_, ?_⟩
  · rw [extract_features_ip_is_new]
    by_cases h : e.srcIp ∈ st.seen_ips <;> simp [h]
  · rw [extract_features_ip_is_new]
    by_cases h : e.srcIp ∈ st.seen_ips <;> simp [h]
  · rw [extract_features_seen_mem]; exact Or.inr rfl
  · rw [extract_features_ip_is_new, if_pos hmem]

/-- Closed witness for claim C4 at a concrete state and event. -/
theorem c4_ip_is_new_semantics_witness :
    let e : Event := ⟨.iso ⟨9, 1⟩, "web-server-01", "ssh_login_success",
      some ⟨some "ubuntu", some "192.168.1.10"⟩⟩
    let st : Main.FeatState := ⟨[], Main.frequent_users⟩
    ((Main.extract_features st e).1.ip_is_new = 1 ↔ e.srcIp ∉ st.seen_ips)
    ∧ ((Main.extract_features st e).1.ip_is_new = 0 ↔ e.srcIp ∈ st.seen_ips)
    ∧ e.srcIp ∈ (Main.extract_features st e).2.seen_ips
    ∧ (Main.extract_features (Main.extract_features st e).2 e).1.ip_is_new = 0 :=
  c4_ip_is_new_semantics _ _ _ rfl

/-! ### Claim C5 -/

/-- Claim C5, counterexample: in `ai_engine.py`, `user_is_rare` is 1 for the
user `root` even though `root` is PRESENT in the only fixed user list of that
extractor — the feature is an equality test against a deny-list, not an
absence test against an allow-list, so the claimed biconditional fails. -/
theorem c5_counterexample :
    AIEngine.extract_features [rootLog] = [[3, 0, 1]]
    ∧ AIEngine.user_is_rare rootLog = 1
    ∧ rootLog.user ∈ ["root", "guest"]
    ∧ ¬ (AIEngine.user_is_rare rootLog = 1 ↔ rootLog.user ∉ ["root", "guest"]) := by
  decide

/-- Claim C5, amended: in `main.py`, `user_is_rare` is 1 iff the event's user
is absent from the `frequent_users` allow-list; in `ai_engine.py`,
`user_is_rare` is 1 iff the log's user is PRESENT in the fixed list
`['root', 'guest']` (a deny-list), hence 0 for users absent from it. -/
theorem c5_user_is_rare_semantics (st : Main.FeatState) (e : Event) (l : AILog) :
    ((Main.extract_features st e).1.user_is_rare = 1 ↔ e.userOf ∉ st.frequent_users)
    ∧ ((Main.extract_features st e).1.user_is_rare = 0 ↔ e.userOf ∈ st.frequent_users)
    ∧ (AIEngine.user_is_rare l = 1 ↔ l.user ∈ ["root", "guest"])
    ∧ (AIEngine.user_is_rare l = 0 ↔ l.user ∉ ["root", "guest"]) := by
  refine ⟨?_, ?_, ?_, ?_⟩
  · rw [extract_features_user_is_rare]
    by_cases h : e.userOf ∈ st.frequent_users <;> simp [h]
  · rw [extract_features_user_is_rare]
    by_cases h : e.userOf ∈ st.frequent_users <;> simp [h]
  · unfold AIEngine.user_is_rare
    by_cases h : l.user ∈ ["root", "guest"] <;> simp [h]
  · unfold AIEngine.user_is_rare
    by_cases h : l.user ∈ ["root", "guest"] <;> simp [h]

/-! ### Claim C2 -/

theorem foldl_log_append (s : List Event) (es : List Event) :
    es.foldl Main.log_append s = s ++ es := by
  induction es generalizing s with
  | nil => simp
  | cons e rest ih => simp [Main.log_append, ih]

/-- Claim C2, amended (the in-memory Event Store of `main.py`): for every
sequence of appended events, `readSince 0` returns exactly those events in
append order; and a `readSince` issued at the cursor returned by a previous
`readSince` returns exactly the events appended after the first call — no
loss, duplication or reordering, for any interleaving of appends and reads. -/
theorem c2_event_store_read_since (es s t : List Event) (c : Nat) :
    Main.readSince (es.foldl Main.log_append []) 0 = (es, es.length)
    ∧ Main.readSince (s ++ t) (Main.readSince s c).2 = (t, s.length + t.length) := by
  constructor
  · rw [foldl_log_append]; simp [Main.readSince]
  · simp [Main.readSince, List.drop_left]

/-- Claim C2, counterexample: for the timestamp-cursor read of
`ai_engine.py.get_new_logs`, after reading `[lateLogA]` the loop's cursor is
`lateLogA`'s timestamp (10); a row with timestamp 5 inserted afterwards is
then never returned — the read at the returned cursor yields `[]`, not the
events appended after the first call, so an event is lost. -/
theorem c2_counterexample :
    AIEngine.get_new_logs 0 [lateLogA] = [lateLogA]
    ∧ AIEngine.get_new_logs lateLogA.timestamp.t
        (AIEngine.logs_insert [lateLogA] lateLogB) = []
    ∧ ([] : List AILog) ≠ [lateLogB] := by
  decide

/-! ### Claim C7 -/

/-- Claim C7, counterexample: the HTTP ingestion gateway (`app.py.ingest_log`)
REJECTS a submission whose timestamp is `"not-a-date"` — `fromisoformat`
raises inside the handler, a 500 error response is returned and nothing is
inserted — contradicting the claim that such a submission is accepted. -/
theorem c7_counterexample :
    (App.ingest_log [] (some subBadTs)).1 = .error 500
    ∧ (App.ingest_log [] (some subBadTs)).2 = [] := by
  decide

/-- Claim C7, amended: the raw socket gateway of `main.py` accepts a
submission with an unparsable timestamp (it performs no validation), and
feature extraction for such an event falls back to the fixed neutral time
value `hour_of_day = 12`, `is_weekend = 0` (internal weekday 0, a Monday)
instead of failing; the HTTP gateway of `app.py`, by contrast, rejects it
at validation (see the counterexample). -/
theorem c7_timestamp_fallback (store : List Event) (st : Main.FeatState)
    (e : Event) (h : e.timestamp.parse = none) :
    Main.handle_client_connection store (some e) = store ++ [e]
    ∧ (Main.extract_features st e).1.hour_of_day = 12
    ∧ (Main.extract_features st e).1.is_weekend = 0 := by
  exact ⟨rfl, (extract_features_fallback st e h).1, (extract_features_fallback st e h).2⟩

/-- Closed witness for claim C7 at the concrete `"not-a-date"` event. -/
theorem c7_timestamp_fallback_witness :
    let e : Event := ⟨.invalid "not-a-date", "web-server-01", "ssh_login_success",
      some ⟨some "ubuntu", some "192.168.1.10"⟩⟩
    let st : Main.FeatState := ⟨[], Main.frequent_users⟩
    Main.handle_client_connection [] (some e) = [] ++ [e]
    ∧ (Main.extract_features st e).1.hour_of_day = 12
    ∧ (Main.extract_features st e).1.is_weekend = 0 :=
  c7_timestamp_fallback [] _ _ rfl

/-! ### Claim C6 -/

/-- Claim C6, counterexample: the HTTP gateway ACCEPTS a submission whose
`details` lacks both `user` and `source_ip` (they default to `"N/A"`), and
appends it to the store — contradicting the claim that `details` must carry
at least `user` and `source_ip` for a submission to be accepted. -/
theorem c6_counterexample :
    (App.ingest_log [] (some subNoUser)).1 = .success
    ∧ (App.ingest_log [] (some subNoUser)).2 =
        [⟨⟨9, 1⟩, "web-server-01", "ssh_login_success", "N/A", "N/A"⟩]
    ∧ subNoUser.details = some ⟨none, none⟩ := by
  decide

/-- Claim C6, amended: `app.py.ingest_log` accepts a submission iff it
carries a parsable `timestamp`, a `hostname`, an `event_type` and a `details`
object; `user` and `source_ip` inside `details` are optional and default to
`"N/A"`.  Every rejection leaves the event store unchanged; every accepted
submission is appended (one row) and acknowledged.  (The socket gateway of
`main.py` performs no validation at all; see `Main.handle_client_connection`.) -/
theorem c6_ingest_validation (db : List App.Row) (body : Option App.Submission) :
    ((App.ingest_log db body).1 = .success ↔
      (∃ sub dt, body = some sub
        ∧ sub.timestamp.bind TS.parse = some dt
        ∧ sub.hostname.isSome ∧ sub.event_type.isSome ∧ sub.details.isSome))
    ∧ ((App.ingest_log db body).1 ≠ .success → (App.ingest_log db body).2 = db)
    ∧ ((App.ingest_log db body).1 = .success →
        ∃ r, (App.ingest_log db body).2 = db ++ [r]) := by
  rcases body with _ | sub
  · simp [App.ingest_log]
  · obtain ⟨ts?, hn?, et?, d?⟩ := sub
    rcases ts? with _ | ts
    · simp [App.ingest_log]
    · rcases hp : ts.parse with _ | dt
      · simp [App.ingest_log, hp]
      · rcases hn? with _ | hn
        · simp [App.ingest_log, hp]
        · rcases et? with _ | et
          · simp [App.ingest_log, hp]
          · rcases d? with _ | d
            · simp [App.ingest_log, hp]
            · simp [App.ingest_log, hp]

/-- Closed witness for claim C6: a fully well-formed submission is accepted
and appended, at concrete inputs. -/
theorem c6_ingest_validation_witness :
    let sub : App.Submission :=
      ⟨some (.iso ⟨9, 1⟩), some "web-server-01", some "ssh_login_success",
       some ⟨some "ubuntu", some "192.168.1.10"⟩⟩
    (App.ingest_log [] (some sub)).1 = .success
    ∧ (∃ r, (App.ingest_log [] (some sub)).2 = [] ++ [r]) :=
  ⟨by decide, (c6_ingest_validation [] _).2.2 (by decide)⟩

/-! ### Claim C9 -/

theorem detectLoop_inserted (predict scoreOf : AILog → Int)
    (notifyOk : AILog → Bool) (new_logs : List AILog) :
    (AIEngine.detectLoop predict scoreOf notifyOk new_logs).1 =
      (new_logs.filter (fun l => predict l = -1)).map (AIEngine.mkAlert scoreOf) := by
  induction new_logs with
  | nil => rfl
  | cons l rest ih =>
      by_cases h : predict l = -1 <;>
        simp [AIEngine.detectLoop, List.filter, h, ih]

theorem detectLoop_attempts (predict scoreOf : AILog → Int)
    (notifyOk : AILog → Bool) (new_logs : List AILog) :
    (AIEngine.detectLoop predict scoreOf notifyOk new_logs).2.map Prod.fst =
      (new_logs.filter (fun l => predict l = -1)).map (AIEngine.mkAlert scoreOf) := by
  induction new_logs with
  | nil => rfl
  | cons l rest ih =>
      by_cases h : predict l = -1 <;>
        simp [AIEngine.detectLoop, List.filter, h, ih]

/-- Claim C9: with a published snapshot, `detect_and_alert` persists exactly
the alerts of the events predicted anomalous, in event order, whatever the
outcome of each best-effort notification (`notifyOk`): the persisted alerts
are identical under any two notification-outcome assignments (a notify
failure never prevents persistence nor stops the scan of the remaining
events of the batch), and each anomalous event's notification is attempted
exactly once (no retry). -/
theorem c9_notify_best_effort (g g2 : Nat) (predict scoreOf : AILog → Int)
    (notifyOk notifyOk' : AILog → Bool) (new_logs : List AILog) :
    (AIEngine.detect_and_alert (some g) (some g2) predict scoreOf notifyOk new_logs).1 =
      (new_logs.filter (fun l => predict l = -1)).map (AIEngine.mkAlert scoreOf)
    ∧ (AIEngine.detect_and_alert (some g) (some g2) predict scoreOf notifyOk new_logs).1 =
      (AIEngine.detect_and_alert (some g) (some g2) predict scoreOf notifyOk' new_logs).1
    ∧ (AIEngine.detect_and_alert (some g) (some g2) predict scoreOf notifyOk
        new_logs).2.map Prod.fst =
      (new_logs.filter (fun l => predict l = -1)).map (AIEngine.mkAlert scoreOf) := by
  refine ⟨detectLoop_inserted .., ?_, detectLoop_attempts ..⟩
  rw [show (AIEngine.detect_and_alert (some g) (some g2) predict scoreOf notifyOk new_logs).1
        = (AIEngine.detectLoop predict scoreOf notifyOk new_logs).1 from rfl,
      show (AIEngine.detect_and_alert (some g) (some g2) predict scoreOf notifyOk' new_logs).1
        = (AIEngine.detectLoop predict scoreOf notifyOk' new_logs).1 from rfl,
      detectLoop_inserted, detectLoop_inserted]

/-! ### Claim C8 -/

theorem insertDesc_length (x : AILog) (l : List AILog) :
    (AIEngine.insertDesc x l).length = l.length + 1 := by
  induction l with
  | nil => rfl
  | cons y ys ih =>
      unfold AIEngine.insertDesc
      split <;> simp [ih]

theorem sortDesc_length (l : List AILog) :
    (AIEngine.sortDesc l).length = l.length := by
  unfold AIEngine.sortDesc
  induction l with
  | nil => rfl
  | cons y ys ih => simpa [insertDesc_length] using ih

theorem get_training_data_length (db : List AILog) :
    (AIEngine.get_training_data db).length =
      min AIEngine.TRAINING_DATA_SIZE db.length := by
  simp [AIEngine.get_training_data, sortDesc_length]

theorem ai_tick_untrained (s : AIEngine.AIState) (a : List AILog)
    (hm : s.model = none) :
    AIEngine.main_loop_tick s a =
      ((AIEngine.train_model { s with db := s.db ++ a }).1,
        .trainAttempt (AIEngine.train_model { s with db := s.db ++ a }).2
          (AIEngine.get_training_data (s.db ++ a))) := by
  simp only [AIEngine.main_loop_tick, hm]

theorem main_tick_untrained_small (ms : Main.MState) (ma : List Event)
    (hm2 : ms.model = none)
    (hlen2 : (ms.log_data_store ++ ma).length < Main.TRAINING_DATA_SIZE) :
    Main.ai_engine_tick ms ma =
      ({ ms with log_data_store := ms.log_data_store ++ ma }, .idle) := by
  have h1 : ¬ Main.TRAINING_DATA_SIZE ≤ (ms.log_data_store ++ ma).length := by omega
  simp only [Main.ai_engine_tick, hm2]
  split_ifs with h0 hA hB
  · exact absurd hA.2 h1
  · exact absurd rfl hB
  · rfl
  · rfl

/-- Claim C8: when training is attempted with fewer events than the
configured minimum batch size, training fails and reports failure; the
published snapshot (`model` and `scaler`) is unchanged, the loop stays
untrained (`model = none`), and the cursor is not advanced — in
`ai_engine.py` (`last_processed_timestamp`) as well as in `main.py`
(`processed_log_count`).  Moreover the attempt is retried on a later tick:
once the table has reached the minimum size, the next tick's training
succeeds and publishes a model. -/
theorem c8_insufficient_data (s : AIEngine.AIState) (a : List AILog)
    (hm : s.model = none)
    (hlen : s.db.length + a.length < AIEngine.TRAINING_DATA_SIZE)
    (ms : Main.MState) (ma : List Event) (hm2 : ms.model = none)
    (hlen2 : ms.log_data_store.length + ma.length < Main.TRAINING_DATA_SIZE) :
    ((AIEngine.main_loop_tick s a).1.model = none
      ∧ (AIEngine.main_loop_tick s a).1.scaler = s.scaler
      ∧ (AIEngine.main_loop_tick s a).1.last_processed_timestamp
          = s.last_processed_timestamp
      ∧ (AIEngine.main_loop_tick s a).2 =
          .trainAttempt false (AIEngine.get_training_data (s.db ++ a)))
    ∧ ((Main.ai_engine_tick ms ma).1.model = none
      ∧ (Main.ai_engine_tick ms ma).1.scaler = ms.scaler
      ∧ (Main.ai_engine_tick ms ma).1.processed_log_count = ms.processed_log_count
      ∧ (Main.ai_engine_tick ms ma).2 = .idle)
    ∧ (∀ more : List AILog,
        AIEngine.TRAINING_DATA_SIZE ≤ s.db.length + a.length + more.length →
        (AIEngine.main_loop_tick (AIEngine.main_loop_tick s a).1 more).1.model ≠ none) := by
  have hshort : (AIEngine.get_training_data (s.db ++ a)).length
      < AIEngine.TRAINING_DATA_SIZE := by
    rw [get_training_data_length, List.length_append]
    omega
  have hfail : AIEngine.train_model { s with db := s.db ++ a } =
      ({ s with db := s.db ++ a }, false) := by
    simp only [AIEngine.train_model]
    rw [if_pos hshort]
  have hai := ai_tick_untrained s a hm
  rw [hfail] at hai
  refine ⟨by rw [hai]; exact ⟨hm, rfl, rfl, rfl⟩,
    by rw [main_tick_untrained_small ms ma hm2 (by rw [List.length_append]; omega)]
       exact ⟨hm2, rfl, rfl, rfl⟩, ?_⟩
  intro more hmore
  rw [hai]
  have hlong : ¬ ((AIEngine.get_training_data ((s.db ++ a) ++ more)).length
      < AIEngine.TRAINING_DATA_SIZE) := by
    rw [get_training_data_length, List.length_append, List.length_append]
    omega
  rw [ai_tick_untrained { s with db := s.db ++ a } more hm]
  simp only [AIEngine.train_model]
  rw [if_neg hlong]
  simp

/-- Closed witness for claim C8: starting from empty stores, a tick changes
nothing, and a later tick with 50 inserted rows trains successfully. -/
theorem c8_insufficient_data_witness :
    ((AIEngine.main_loop_tick (AIEngine.initState []) []).1.model = none
      ∧ (AIEngine.main_loop_tick (AIEngine.initState []) []).1.scaler
          = (AIEngine.initState []).scaler
      ∧ (AIEngine.main_loop_tick (AIEngine.initState []) []).1.last_processed_timestamp
          = (AIEngine.initState []).last_processed_timestamp
      ∧ (AIEngine.main_loop_tick (AIEngine.initState []) []).2 =
          .trainAttempt false (AIEngine.get_training_data ([] ++ [])))
    ∧ ((Main.ai_engine_tick Main.initState []).1.model = none
      ∧ (Main.ai_engine_tick Main.initState []).1.scaler = Main.initState.scaler
      ∧ (Main.ai_engine_tick Main.initState []).1.processed_log_count
          = Main.initState.processed_log_count
      ∧ (Main.ai_engine_tick Main.initState []).2 = .idle)
    ∧ (AIEngine.main_loop_tick
        (AIEngine.main_loop_tick (AIEngine.initState []) []).1 demoDB).1.model ≠ none :=
  ⟨(c8_insufficient_data (AIEngine.initState []) [] rfl (by decide)
      Main.initState [] rfl (by decide)).1,
   (c8_insufficient_data (AIEngine.initState []) [] rfl (by decide)
      Main.initState [] rfl (by decide)).2.1,
   (c8_insufficient_data (AIEngine.initState []) [] rfl (by decide)
      Main.initState [] rfl (by decide)).2.2 demoDB (by decide)⟩

/-! ### Claim C3 -/

theorem train_model_scaler_eq_model (s : AIEngine.AIState) (h : s.scaler = s.model) :
    (AIEngine.train_model s).1.scaler = (AIEngine.train_model s).1.model := by
  simp only [AIEngine.train_model]
  split_ifs
  · exact h
  · rfl

theorem ai_tick_snapshot (s : AIEngine.AIState) (a : List AILog)
    (h : s.scaler = s.model) :
    (AIEngine.main_loop_tick s a).1.scaler = (AIEngine.main_loop_tick s a).1.model
    ∧ ∀ g1 g2 b, (AIEngine.main_loop_tick s a).2 = .scored g1 g2 b → g1 = g2 := by
  simp only [AIEngine.main_loop_tick]
  rcases hm : s.model with _ | g
  · simp only [hm]
    refine ⟨train_model_scaler_eq_model _ (h.trans hm), ?_⟩
    intro g1 g2 b hb
    simp at hb
  · simp only [hm]
    have hs : s.scaler = some g := h.trans hm
    by_cases hr : AIEngine.MODEL_RETRAIN_LOG_COUNT ≤ s.logs_processed_since_retrain
    · rw [if_pos hr]
      refine ⟨train_model_scaler_eq_model _ hs, ?_⟩
      intro g1 g2 b hb
      simp at hb
    · rw [if_neg hr]
      by_cases hne :
          AIEngine.get_new_logs s.last_processed_timestamp (s.db ++ a) ≠ []
      · rw [dif_pos hne]
        refine ⟨hs, ?_⟩
        intro g1 g2 b hb
        rw [hs] at hb
        simp only [AIEngine.AITickLog.scored.injEq] at hb
        omega
      · rw [dif_neg hne]
        refine ⟨hs, ?_⟩
        intro g1 g2 b hb
        simp at hb

theorem ai_run_snapshot (ticks : List (List AILog)) (s : AIEngine.AIState)
    (h : s.scaler = s.model) :
    (AIEngine.run ticks s).1.scaler = (AIEngine.run ticks s).1.model
    ∧ ∀ g1 g2 b,
        AIEngine.AITickLog.scored g1 g2 b ∈ (AIEngine.run ticks s).2 → g1 = g2 := by
  induction ticks generalizing s with
  | nil =>
      refine ⟨h, ?_⟩
      intro g1 g2 b hb
      simp [AIEngine.run] at hb
  | cons a rest ih =>
      have ht := ai_tick_snapshot s a h
      have hr := ih (AIEngine.main_loop_tick s a).1 ht.1
      refine ⟨by simpa [AIEngine.run] using hr.1, ?_⟩
      intro g1 g2 b hb
      simp only [AIEngine.run, List.mem_cons] at hb
      rcases hb with hb | hb
      · exact ht.2 g1 g2 b hb.symm
      · exact hr.2 g1 g2 b hb

theorem main_tick_scaler_eq_model (s : Main.MState) (a : List Event)
    (h : s.scaler = s.model) :
    (Main.ai_engine_tick s a).1.scaler = (Main.ai_engine_tick s a).1.model := by
  simp only [Main.ai_engine_tick, Main.train_model, detect_anomalies_model,
    detect_anomalies_scaler]
  split_ifs <;> first | rfl | exact h

theorem main_run_scaler_eq_model (ticks : List (List Event)) (s : Main.MState)
    (h : s.scaler = s.model) :
    (Main.run ticks s).1.scaler = (Main.run ticks s).1.model := by
  induction ticks generalizing s with
  | nil => exact h
  | cons a rest ih =>
      simpa [Main.run] using
        ih (Main.ai_engine_tick s a).1 (main_tick_scaler_eq_model s a h)

/-- Claim C3: a scoring call never observes a hybrid snapshot.  In any run of
`ai_engine.py.main_loop`, every batch scored by `detect_and_alert` is scored
with a `model` and a `scaler` produced by one and the same training run
(equal run tags); training/retraining replaces both together, so the pair
visible to scoring is always matched — likewise for the `model`/`scaler`
globals of `main.py` after any run of its loop. -/
theorem c3_snapshot_not_hybrid (db₀ : List AILog) (ticks : List (List AILog))
    (mticks : List (List Event)) (g1 g2 : Nat) (b : List AILog)
    (hb : AIEngine.AITickLog.scored g1 g2 b
        ∈ (AIEngine.run ticks (AIEngine.initState db₀)).2) :
    g1 = g2
    ∧ (Main.run mticks Main.initState).1.scaler
        = (Main.run mticks Main.initState).1.model :=
  ⟨(ai_run_snapshot ticks (AIEngine.initState db₀) rfl).2 g1 g2 b hb,
   main_run_scaler_eq_model mticks Main.initState rfl⟩

/-- Closed witness for claim C3: a two-tick run over fifty rows trains on the
first tick and scores on the second, with matched snapshot tags. -/
theorem c3_snapshot_not_hybrid_witness :
    AIEngine.AITickLog.scored 1 1 (AIEngine.get_new_logs 0 demoDB)
        ∈ (AIEngine.run [[], []] (AIEngine.initState demoDB)).2
    ∧ ((1 : Nat) = 1
        ∧ (Main.run [] Main.initState).1.scaler
            = (Main.run [] Main.initState).1.model) :=
  ⟨by decide,
   c3_snapshot_not_hybrid demoDB [[], []] [] 1 1 (AIEngine.get_new_logs 0 demoDB)
     (by decide)⟩

/-! ### Claim C1 -/

/-- Claim C1, counterexample: in `ai_engine.py.main_loop`, training does NOT
advance the cursor (`last_processed_timestamp`).  Over a table of fifty rows,
the first tick trains on all fifty; the second tick then fetches the very
same rows (all timestamps exceed the untouched cursor) and scores them: the
row `demoLog` is processed by BOTH the training path and the scoring path,
refuting the claimed mutual exclusion. -/
theorem c1_counterexample :
    demoLog ∈ AIEngine.trainedEvents
        (AIEngine.run [[], []] (AIEngine.initState demoDB)).2
    ∧ demoLog ∈ AIEngine.scoredEvents
        (AIEngine.run [[], []] (AIEngine.initState demoDB)).2 := by
  decide

theorem mainInv_mem_congr (s : Main.MState) (l1 l2 : List Main.MLog)
    (hmem : ∀ x, x ∈ l1 ↔ x ∈ l2) (h : MainInv s l1) : MainInv s l2 := by
  obtain ⟨h1, h2, h3, h4⟩ := h
  refine ⟨h1, fun lo hi hm => h2 lo hi ((hmem _).2 hm), fun hx => ?_,
    fun lo hi lo' hi' ht hs => h4 lo hi lo' hi' ((hmem _).2 ht) ((hmem _).2 hs)⟩
  obtain ⟨hp, hn⟩ := h3 hx
  exact ⟨hp, fun lo hi =>
    ⟨fun hm => (hn lo hi).1 ((hmem _).2 hm),
     fun hm => (hn lo hi).2 ((hmem _).2 hm)⟩⟩

theorem mainInv_tick (s : Main.MState) (a : List Event) (logs : List Main.MLog)
    (h : MainInv s logs) :
    MainInv (Main.ai_engine_tick s a).1 ((Main.ai_engine_tick s a).2 :: logs) := by
  obtain ⟨h1, h2, h3, h4⟩ := h
  have hple : s.processed_log_count ≤ (s.log_data_store ++ a).length := by
    rw [List.length_append]; omega
  simp only [Main.ai_engine_tick, Main.train_model, MainInv,
    detect_anomalies_model, detect_anomalies_scaler, detect_anomalies_store]
  split_ifs with h0 hA hB
  · -- training tick: model was none, store reached the training size
    obtain ⟨hmn, hsz⟩ := hA
    obtain ⟨hp0, hnone⟩ := h3 hmn
    refine ⟨le_refl _, ?_, ?_, ?_⟩
    · intro lo hi hm
      rcases List.mem_cons.1 hm with heq | hm
      · cases heq; exact le_refl _
      · exact absurd hm (hnone lo hi).1
    · intro hx; exact hx.elim
    · intro lo hi lo' hi' ht hs
      rcases List.mem_cons.1 hs with heq | hs
      · simp at heq
      · exact absurd hs (hnone lo' hi').2
  · -- scoring tick: model present
    refine ⟨le_refl _, ?_, ?_, ?_⟩
    · intro lo hi hm
      rcases List.mem_cons.1 hm with heq | hm
      · simp at heq
      · exact le_trans (h2 lo hi hm) hple
    · intro hx; exact absurd hx hB
    · intro lo hi lo' hi' ht hs
      rcases List.mem_cons.1 ht with heq | ht
      · simp at heq
      · rcases List.mem_cons.1 hs with heq | hs
        · cases heq; exact h2 lo hi ht
        · exact h4 lo hi lo' hi' ht hs
  · -- tick with new logs but neither branch applies (untrained, small store)
    refine ⟨hple, ?_, ?_, ?_⟩
    · intro lo hi hm
      rcases List.mem_cons.1 hm with heq | hm
      · simp at heq
      · exact h2 lo hi hm
    · intro hx
      obtain ⟨hp0, hnone⟩ := h3 hx
      refine ⟨hp0, fun lo hi => ⟨?_, ?_⟩⟩
      · intro hm
        rcases List.mem_cons.1 hm with heq | hm
        · simp at heq
        · exact (hnone lo hi).1 hm
      · intro hm
        rcases List.mem_cons.1 hm with heq | hm
        · simp at heq
        · exact (hnone lo hi).2 hm
    · intro lo hi lo' hi' ht hs
      rcases List.mem_cons.1 ht with heq | ht
      · simp at heq
      · rcases List.mem_cons.1 hs with heq | hs
        · simp at heq
        · exact h4 lo hi lo' hi' ht hs
  · -- idle tick: no new logs
    refine ⟨hple, ?_, ?_, ?_⟩
    · intro lo hi hm
      rcases List.mem_cons.1 hm with heq | hm
      · simp at heq
      · exact h2 lo hi hm
    · intro hx
      obtain ⟨hp0, hnone⟩ := h3 hx
      refine ⟨hp0, fun lo hi => ⟨?_, ?_⟩⟩
      · intro hm
        rcases List.mem_cons.1 hm with heq | hm
        · simp at heq
        · exact (hnone lo hi).1 hm
      · intro hm
        rcases List.mem_cons.1 hm with heq | hm
        · simp at heq
        · exact (hnone lo hi).2 hm
    · intro lo hi lo' hi' ht hs
      rcases List.mem_cons.1 ht with heq | ht
      · simp at heq
      · rcases List.mem_cons.1 hs with heq | hs
        · simp at heq
        · exact h4 lo hi lo' hi' ht hs

theorem mainInv_run (ticks : List (List Event)) (s : Main.MState)
    (logs : List Main.MLog) (h : MainInv s logs) :
    MainInv (Main.run ticks s).1 ((Main.run ticks s).2 ++ logs) := by
  induction ticks generalizing s logs with
  | nil => simpa [Main.run]
  | cons a rest ih =>
      have hstep := mainInv_tick s a logs h
      have hrest := ih (Main.ai_engine_tick s a).1
        ((Main.ai_engine_tick s a).2 :: logs) hstep
      refine mainInv_mem_congr _ _ _ (fun x => ?_) hrest
      simp only [Main.run, List.mem_append, List.mem_cons]
      tauto

/-- Claim C1, amended: in `main.py.ai_engine_loop`, training and scoring are
mutually exclusive per event: every training batch `[lo, hi)` of store
indices lies entirely below every scoring batch `[lo2, hi2)` (training
happens only before the first model exists, and the cursor is advanced past
the training batch), so no store index is processed by both paths.  In
`ai_engine.py.main_loop` the claim fails (see the counterexample): training
does not advance `last_processed_timestamp`, so training-batch rows are
subsequently scored. -/
theorem c1_main_loop_train_score_disjoint (ticks : List (List Event))
    (lo hi lo2 hi2 : Nat)
    (ht : Main.MLog.trained lo hi ∈ (Main.run ticks Main.initState).2)
    (hs : Main.MLog.scored lo2 hi2 ∈ (Main.run ticks Main.initState).2) :
    hi ≤ lo2 ∧ ∀ i, i < hi → ¬ (lo2 ≤ i ∧ i < hi2) := by
  have h0 : MainInv Main.initState [] := by
    refine ⟨by simp [Main.initState], by simp, fun hx => ⟨rfl, by simp⟩, by simp⟩
  have h := mainInv_run ticks Main.initState [] h0
  rw [List.append_nil] at h
  have hle := h.2.2.2 lo hi lo2 hi2 ht hs
  refine ⟨hle, ?_⟩
  intro i hih hc
  exact absurd (lt_of_lt_of_le hih hle) (not_lt.2 hc.1)

/-- Closed witness for claim C1: a run that appends 100 events (training
tick) and then one more (scoring tick) produces the training batch
`[0, 100)` and the scoring batch `[100, 101)`, and the theorem applies. -/
theorem c1_main_loop_train_score_disjoint_witness :
    Main.MLog.trained 0 100
        ∈ (Main.run [List.replicate 100 demoEvent, [demoEvent]] Main.initState).2
    ∧ Main.MLog.scored 100 101
        ∈ (Main.run [List.replicate 100 demoEvent, [demoEvent]] Main.initState).2
    ∧ (100 ≤ 100 ∧ ∀ i, i < 100 → ¬ (100 ≤ i ∧ i < 101)) :=
  ⟨by decide, by decide,
   c1_main_loop_train_score_disjoint [List.replicate 100 demoEvent, [demoEvent]]
     0 100 100 101 (by decide) (by decide)⟩

/-! ### Claim C10 -/

theorem extractBatch_seen_mem (st : Main.FeatState) (logs : List Event) (x : String) :
    x ∈ (Main.extractBatch st logs).2.seen_ips ↔
      (x ∈ st.seen_ips ∨ x ∈ logs.map Event.srcIp) := by
  induction logs generalizing st with
  | nil => simp [Main.extractBatch]
  | cons e rest ih =>
      simp only [Main.extractBatch, List.map_cons, List.mem_cons]
      rw [ih, extract_features_seen_mem]
      tauto

theorem extractBatch_freq (st : Main.FeatState) (logs : List Event) :
    (Main.extractBatch st logs).2.frequent_users = st.frequent_users := by
  induction logs generalizing st with
  | nil => rfl
  | cons e rest ih =>
      simp only [Main.extractBatch]
      rw [ih, extract_features_freq]

theorem extractBatch_get (logs : List Event) (st : Main.FeatState) (j : Nat)
    (e : Event) (hj : logs[j]? = some e) :
    (Main.extractBatch st logs).1[j]? =
      some (Main.extract_features (Main.extractBatch st (logs.take j)).2 e).1 := by
  induction logs generalizing st j with
  | nil => simp at hj
  | cons e0 rest ih =>
      cases j with
      | zero =>
          simp only [List.getElem?_cons_zero, Option.some.injEq] at hj
          subst hj
          simp [Main.extractBatch]
      | succ j =>
          simp only [List.getElem?_cons_succ] at hj
          simp only [Main.extractBatch, List.take_succ_cons, List.getElem?_cons_succ]
          exact ih (Main.extract_features st e0).2 j hj

/-- Claim C10: after a batch is consumed — by feature extraction directly, by
the training path (`train_model`), or by the scoring path
(`detect_anomalies`, whose events are processed only when a snapshot is
published: with `model`/`scaler` unset the function returns at once leaving
all state untouched) — `seen_ips` equals its initial value united with the
source IPs of all events of the batch; the `frequent_users` allow-list is
never mutated by any of these operations; and within a batch the `j`-th
vector has `ip_is_new = 1` exactly when the event's source IP was neither
already in `seen_ips` nor the source IP of an earlier event of the batch
(only the first occurrence of a duplicated IP yields 1). -/
theorem c10_seen_ips_accumulation (st : Main.FeatState) (logs : List Event)
    (s sd s0 : Main.MState) (j : Nat) (e : Event) (hj : logs[j]? = some e)
    (hdm : sd.model ≠ none) (hds : sd.scaler ≠ none)
    (h0 : s0.model = none ∨ s0.scaler = none) :
    (∀ x, x ∈ (Main.extractBatch st logs).2.seen_ips ↔
        (x ∈ st.seen_ips ∨ x ∈ logs.map Event.srcIp))
    ∧ (Main.extractBatch st logs).2.frequent_users = st.frequent_users
    ∧ (Main.train_model s logs).feat.frequent_users = s.feat.frequent_users
    ∧ (Main.detect_anomalies sd logs).feat.frequent_users = sd.feat.frequent_users
    ∧ (∀ x, x ∈ (Main.train_model s logs).feat.seen_ips ↔
        (x ∈ s.feat.seen_ips ∨ x ∈ logs.map Event.srcIp))
    ∧ (∀ x, x ∈ (Main.detect_anomalies sd logs).feat.seen_ips ↔
        (x ∈ sd.feat.seen_ips ∨ x ∈ logs.map Event.srcIp))
    ∧ Main.detect_anomalies s0 logs = s0
    ∧ (Main.extractBatch st logs).1[j]? =
        some (Main.extract_features (Main.extractBatch st (logs.take j)).2 e).1
    ∧ ((Main.extract_features (Main.extractBatch st (logs.take j)).2 e).1.ip_is_new = 1
        ↔ (e.srcIp ∉ st.seen_ips ∧ e.srcIp ∉ (logs.take j).map Event.srcIp)) := by
  have hd := detect_anomalies_some sd logs hdm hds
  refine ⟨fun x => extractBatch_seen_mem st logs x, extractBatch_freq st logs,
    extractBatch_freq s.feat logs,
    by rw [hd]; exact extractBatch_freq sd.feat logs,
    fun x => extractBatch_seen_mem s.feat logs x,
    fun x => by rw [hd]; exact extractBatch_seen_mem sd.feat logs x,
    detect_anomalies_none s0 logs h0,
    extractBatch_get logs st j e hj, ?_⟩
  rw [extract_features_ip_is_new]
  by_cases hmem : e.srcIp ∈ (Main.extractBatch st (logs.take j)).2.seen_ips
  · rw [if_pos hmem]
    rw [extractBatch_seen_mem] at hmem
    constructor
    · intro h0; exact absurd h0 (by decide)
    · rintro ⟨hn1, hn2⟩; exact absurd hmem (by tauto)
  · rw [if_neg hmem]
    rw [extractBatch_seen_mem] at hmem
    push_neg at hmem
    exact ⟨fun _ => hmem, fun _ => rfl⟩

/-- Closed witness for claim C10: a batch containing the same event twice,
scored under a published snapshot (`model = scaler = some 1`); the second
occurrence's vector has `ip_is_new = 0`, and the same call on the untrained
initial state is a no-op. -/
theorem c10_seen_ips_accumulation_witness :
    ("192.168.1.10" ∈ (Main.detect_anomalies
        { Main.initState with model := some 1, scaler := some 1 }
        [demoEvent, demoEvent]).feat.seen_ips ↔
      ("192.168.1.10" ∈ Main.initState.feat.seen_ips
        ∨ "192.168.1.10" ∈ [demoEvent, demoEvent].map Event.srcIp))
    ∧ Main.detect_anomalies Main.initState [demoEvent, demoEvent] = Main.initState
    ∧ (Main.extractBatch ⟨[], Main.frequent_users⟩ [demoEvent, demoEvent]).1[1]? =
      some (Main.extract_features
        (Main.extractBatch ⟨[], Main.frequent_users⟩
          ([demoEvent, demoEvent].take 1)).2 demoEvent).1
    ∧ ((Main.extract_features
        (Main.extractBatch ⟨[], Main.frequent_users⟩
          ([demoEvent, demoEvent].take 1)).2 demoEvent).1.ip_is_new = 1
        ↔ (demoEvent.srcIp ∉ ([] : List String)
            ∧ demoEvent.srcIp ∉ ([demoEvent, demoEvent].take 1).map Event.srcIp)) :=
  ⟨(c10_seen_ips_accumulation ⟨[], Main.frequent_users⟩ [demoEvent, demoEvent]
      Main.initState { Main.initState with model := some 1, scaler := some 1 }
      Main.initState 1 demoEvent (by decide) (by decide) (by decide)
      (Or.inl rfl)).2.2.2.2.2.1 "192.168.1.10",
   (c10_seen_ips_accumulation ⟨[], Main.frequent_users⟩ [demoEvent, demoEvent]
      Main.initState { Main.initState with model := some 1, scaler := some 1 }
      Main.initState 1 demoEvent (by decide) (by decide) (by decide)
      (Or.inl rfl)).2.2.2.2.2.2.1,
   (c10_seen_ips_accumulation ⟨[], Main.frequent_users⟩ [demoEvent, demoEvent]
      Main.initState { Main.initState with model := some 1, scaler := some 1 }
      Main.initState 1 demoEvent (by decide) (by decide) (by decide)
      (Or.inl rfl)).2.2.2.2.2.2.2.1,
   (c10_seen_ips_accumulation ⟨[], Main.frequent_users⟩ [demoEvent, demoEvent]
      Main.initState { Main.initState with model := some 1, scaler := some 1 }
      Main.initState 1 demoEvent (by decide) (by decide) (by decide)
      (Or.inl rfl)).2.2.2.2.2.2.2.2⟩

end AISec
